import Mathlib

/-!
Verification of the sharedbox value codec and dictionary adapter.

The development shallowly embeds the C++ sources of the repository
(src/sharedbox/shareddict.cpp and shareddict.hpp).  Byte strings are
modelled as List Nat, with every access that the C++ performs through a
uint8 cast taken modulo 256.  The nanobind adapter functions are
transcribed statement by statement; the core engine SharedMemoryDict
(declared in _core/sharedmemory.hpp, whose implementation is not part of
the sources at hand) is modelled from the specification as an
association list with one entry per key.
-/

namespace SharedBox

/-- Transcription of the C++ helper write_le T (shareddict.cpp lines 7-14)
with w = sizeof(T): for i in 0..w-1 it pushes the byte
(value >> (i*8)) & 0xFF. -/
def write_le (w n : Nat) : List Nat :=
  (List.range w).map fun i => (n >>> (8 * i)) &&& 0xFF

/-- Transcription of the C++ helper read_le T (shareddict.cpp lines 17-27)
with w = sizeof(T): for i in 0..w-1 it ors uint8(ptr[i]) << (i*8) into the
accumulator.  The uint8 cast of the char read is modelled by the mod 256;
a read past the end of the buffer is undefined behavior in C++ and is
modelled by the getD default 0. -/
def read_le (w : Nat) (l : List Nat) : Nat :=
  (List.range w).foldl (fun v i => v ||| (l.getD i 0 % 256) <<< (8 * i)) 0

/-- Specification-side little-endian rendering of a number on w bytes:
byte i is the i-th base-256 digit. -/
def leDigits (w n : Nat) : List Nat :=
  (List.range w).map fun i => n / 256 ^ i % 256

/-- The dlpack element-type codes accepted by serialize_numpy
(shareddict.cpp lines 172-196).  Any other code makes the C++ throw
"Unsupported numpy dtype"; those records are never produced, so the
embedding carries the supported codes only. -/
inductive DtypeCode where
  | int
  | uint
  | float
  | complex
  | bool
deriving DecidableEq, Repr

/-- The dtype character chosen for each supported code
(ASCII i, u, f, c, b as in shareddict.cpp lines 172-196). -/
def typeChar : DtypeCode → Nat
  | .int => 105
  | .uint => 117
  | .float => 102
  | .complex => 99
  | .bool => 98

/-- Element type of an array as carried by dlpack: a code and a bit
width.  The bits field is a uint8 in dlpack, hence always below 256. -/
structure Dtype where
  code : DtypeCode
  bits : Nat
deriving DecidableEq, Repr

/-- Decimal printing with explicit fuel, as done by the ostringstream
insertion of an integer in shareddict.cpp line 199: most significant
digit first, ASCII codes.  The fuel n + 1 always suffices since a number
has at most n + 1 decimal digits. -/
def decDigitsCore : Nat → Nat → List Nat → List Nat
  | 0, _, acc => acc
  | fuel + 1, n, acc =>
    if n < 10 then (48 + n % 10) :: acc
    else decDigitsCore fuel (n / 10) ((48 + n % 10) :: acc)

/-- ASCII decimal digits of n, most significant first. -/
def decDigits (n : Nat) : List Nat :=
  decDigitsCore (n + 1) n []

/-- Value of a most-significant-first ASCII decimal digit string. -/
def parseDec (l : List Nat) : Nat :=
  l.foldl (fun acc d => acc * 10 + (d - 48)) 0

/-- The dtype descriptor string built at shareddict.cpp lines 169-200:
the endianness character < (ASCII 60), the type character, and the
decimal item size bits / 8. -/
def dtypeString (dt : Dtype) : List Nat :=
  60 :: typeChar dt.code :: decDigits (dt.bits / 8)

/-- Transcription of SharedDict::serialize_numpy (shareddict.cpp lines
155-224).  The array argument is its dlpack dtype, its shape, and the
raw bytes of its backing buffer (data_len = nbytes, the buffer is copied
verbatim).  Output: marker 0x01, 4-byte dtype string length, the dtype
string, 4-byte ndim, 8 bytes per axis extent, 8-byte data length, data. -/
def serialize_numpy (dt : Dtype) (shape data : List Nat) : List Nat :=
  let ds := dtypeString dt
  1 :: (write_le 4 ds.length ++ ds ++ write_le 4 shape.length
    ++ (shape.map (write_le 8)).flatten ++ write_le 8 data.length ++ data)

/-- Interpretation of the dtype descriptor string by the external numpy
library.  Modelled from the spec: numpy itself is not part of the
sources; per the specification the descriptor encodes byte order, element
kind and element width, the width being the trailing decimal number of
bytes.  frombuffer divides the buffer length by this width. -/
def parseItemsize (s : List Nat) : Nat :=
  parseDec (s.drop 2)

/-- A decoded value as handed back to Python: either the opaque payload
given to pickle.loads, or an ndarray described by its dtype string,
shape and element bytes. -/
inductive DecValue where
  | pickled (payload : List Nat)
  | ndarray (dtypeStr : List Nat) (shape : List Nat) (data : List Nat)
deriving DecidableEq, Repr

/-- Transcription of SharedDict::deserialize_numpy (shareddict.cpp lines
227-273).  The C++ reads the header fields with read_le and plain
pointer advances and never checks them against the buffer size (the size
parameter of the function is unused); reads past the end of the buffer
are undefined behavior and are modelled by getD 0 / short take.
numpy.frombuffer yields a one-dimensional array of data_len / itemsize
elements and reshape is applied only when ndim exceeds one
(lines 261-269). -/
def deserialize_numpy (data : List Nat) : DecValue :=
  let dtype_len := read_le 4 data
  let r1 := data.drop 4
  let dtype_str := r1.take dtype_len
  let r2 := r1.drop dtype_len
  let ndim := read_le 4 r2
  let r3 := r2.drop 4
  let shape := (List.range ndim).map fun i => read_le 8 (r3.drop (8 * i))
  let r4 := r3.drop (8 * ndim)
  let data_len := read_le 8 r4
  let payload := (r4.drop 8).take data_len
  let outShape := if 1 < ndim then shape else [data_len / parseItemsize dtype_str]
  DecValue.ndarray dtype_str outShape payload

/-- The number of payload bytes the deserialize_numpy pointer walk
consumes, as dictated by the length fields it reads: 4 for the dtype
length, the dtype bytes, 4 for ndim, 8 per axis, 8 for the data length,
and the data bytes.  The C++ performs these reads unconditionally. -/
def deserializeNumpyBytesNeeded (data : List Nat) : Nat :=
  let dtype_len := read_le 4 data
  let r2 := (data.drop 4).drop dtype_len
  let ndim := read_le 4 r2
  let r4 := (r2.drop 4).drop (8 * ndim)
  let data_len := read_le 8 r4
  4 + dtype_len + 4 + 8 * ndim + 8 + data_len

/-- A Python value handed to the adapter: either an object serialized by
pickle (the embedding identifies the object with its pickled bytes,
pickle.dumps and pickle.loads being external and mutually inverse), or a
numpy array given by dtype, shape and backing-buffer bytes. -/
inductive PyValue where
  | pickled (payload : List Nat)
  | ndarray (dt : Dtype) (shape : List Nat) (data : List Nat)
deriving DecidableEq, Repr

/-- The decoded form of a Python value: what a faithful decode of its
encoding has to return for the result to be equal, as a Python object,
to the original (same pickle payload, respectively same dtype
descriptor, same shape, same element bytes). -/
def PyValue.decodedForm : PyValue → DecValue
  | .pickled p => .pickled p
  | .ndarray dt sh d => .ndarray (dtypeString dt) sh d

/-- Transcription of SharedDict::serialize_value (shareddict.cpp lines
97-123): numpy arrays take the native path, everything else is the
pickle marker 0x00 followed by the pickle.dumps bytes. -/
def serialize_value : PyValue → List Nat
  | .pickled p => 0 :: p
  | .ndarray dt sh d => serialize_numpy dt sh d

/-- Transcription of SharedDict::deserialize_value (shareddict.cpp lines
126-152): empty records are rejected, marker 0x01 dispatches to
deserialize_numpy on the rest, marker 0x00 feeds the rest to
pickle.loads, and any other first byte feeds the whole record, first
byte included, to pickle.loads (legacy fallback). -/
def deserialize_value (data : List Nat) : Except String DecValue :=
  match data with
  | [] => .error "Empty data cannot be deserialized"
  | b :: rest =>
    if b % 256 = 1 then .ok (deserialize_numpy rest)
    else if b % 256 = 0 then .ok (.pickled rest)
    else .ok (.pickled (b :: rest))

instance {α β : Type} [DecidableEq α] [DecidableEq β] : DecidableEq (Except α β) := fun x y =>
  match x, y with
  | .ok a, .ok b => if h : a = b then isTrue (by rw [h]) else isFalse (by simp [h])
  | .error a, .error b => if h : a = b then isTrue (by rw [h]) else isFalse (by simp [h])
  | .ok _, .error _ => isFalse (by simp)
  | .error _, .ok _ => isFalse (by simp)

/-- Well-formedness of a Python value for the native round trip: an
opaque value always qualifies; an array must have its dlpack uint8 bit
width (a whole number of at least one byte), at least one dimension, a
backing buffer of exactly prod shape * itemsize bytes (nbytes of a
contiguous array), and header fields that fit the 32- and 64-bit
record fields. -/
def PyValue.supported : PyValue → Bool
  | .pickled _ => true
  | .ndarray dt sh data =>
    decide (dt.bits < 256) && decide (8 ≤ dt.bits) && decide (1 ≤ sh.length)
      && decide (sh.length < 2 ^ 32) && sh.all (fun a => decide (a < 2 ^ 64))
      && decide (data.length = sh.prod * (dt.bits / 8)) && decide (data.length < 2 ^ 64)

/-- The shared store as seen through the core engine: keys with their
serialized records, in natural iteration order.  Modelled from the spec:
the SharedMemoryDict engine of _core/sharedmemory.hpp is not among the
sources; per the specification it is a mapping with at most one occupied
entry per distinct key. -/
abbrev Store := List (String × List Nat)

namespace SharedMemoryDict

/-- Modelled from the spec: core lookup (4.3), absent keys give none. -/
def get (s : Store) (k : String) : Option (List Nat) :=
  (s.find? fun p => p.1 == k).map (·.2)

/-- Modelled from the spec: core contains. -/
def contains (s : Store) (k : String) : Bool :=
  (get s k).isSome

/-- Modelled from the spec: core insert_or_update (4.3) — an existing
entry is updated in place, a new key is appended. -/
def set (s : Store) (k : String) (v : List Nat) : Store :=
  if contains s k then s.map fun p => if p.1 == k then (k, v) else p
  else s ++ [(k, v)]

/-- Modelled from the spec: core remove (4.3) — none when the key is
absent (the store is untouched), otherwise the store without the key. -/
def erase (s : Store) (k : String) : Option Store :=
  if contains s k then some (s.filter fun p => !(p.1 == k)) else none

/-- Modelled from the spec: core count, the number of occupied entries. -/
def size (s : Store) : Nat :=
  s.length

/-- Modelled from the spec: core snapshot_keys in natural iteration
order. -/
def keys (s : Store) : List String :=
  s.map (·.1)

end SharedMemoryDict

/-- Outcome of SharedDict::getitem as observable from Python: a decoded
value, a KeyError carrying the key, or a deserialization failure. -/
inductive GetResult where
  | found (v : DecValue)
  | keyError (k : String)
  | deserError (msg : String)
deriving DecidableEq, Repr

namespace SharedDict

/-- Transcription of SharedDict::getitem, Python __getitem__
(shareddict.cpp lines 335-343): a failed core lookup throws
nb::key_error, otherwise the record is deserialized. -/
def getitem (s : Store) (k : String) : GetResult :=
  match SharedMemoryDict.get s k with
  | none => .keyError k
  | some bytes =>
    match deserialize_value bytes with
    | .error m => .deserError m
    | .ok v => .found v

/-- Transcription of SharedDict::setitem, Python __setitem__
(shareddict.cpp lines 345-349): serialize, then store. -/
def setitem (s : Store) (k : String) (v : PyValue) : Store :=
  SharedMemoryDict.set s k (serialize_value v)

/-- Transcription of SharedDict::delitem, Python __delitem__
(shareddict.cpp lines 351-357): a failed core erase throws
nb::key_error, otherwise the updated store results. -/
def delitem (s : Store) (k : String) : Except String Store :=
  match SharedMemoryDict.erase s k with
  | none => .error k
  | some s2 => .ok s2

/-- Transcription of SharedDict::containsKey, Python __contains__
(shareddict.cpp lines 330-333). -/
def containsKey (s : Store) (k : String) : Bool :=
  SharedMemoryDict.contains s k

/-- Transcription of SharedDict::get with default (shareddict.cpp lines
359-369): the __getitem__ call runs inside try and EVERY std::exception
— nb::key_error as well as any deserialization failure — is caught and
turned into the caller-supplied default. -/
def get (s : Store) (k : String) (dflt : DecValue) : DecValue :=
  match getitem s k with
  | .found v => v
  | .keyError _ => dflt
  | .deserError _ => dflt

end SharedDict

/-- The statistics record built by SharedDict::get_stats.  The two
averages are doubles in the C++; byte counts are exact in double well
beyond any reachable store size, so they are modelled as rationals.  The
segment_name string field, which merely echoes the constructor argument,
is not modelled. -/
structure Stats where
  total_entries : Nat
  sample_size : Nat
  avg_key_utf8_bytes : ℚ
  avg_value_pickle_bytes : ℚ
  estimated_data_bytes : ℤ
deriving DecidableEq, Repr

/-- The sampling loop of SharedDict::get_stats (shareddict.cpp lines
414-424): for each sampled index, add the key byte size (std::string
holds UTF-8) and, when the core lookup succeeds, the stored record byte
size. -/
def statsLoop (s : Store) (all_keys : List String) (sample_size : Nat) : Nat × Nat :=
  (List.range sample_size).foldl
    (fun acc i =>
      let key := all_keys.getD i ""
      let kb := acc.1 + key.utf8ByteSize
      match SharedMemoryDict.get s key with
      | some v => (kb, acc.2 + v.length)
      | none => (kb, acc.2)) (0, 0)

/-- Transcription of SharedDict::get_stats (shareddict.cpp lines
403-437): take all keys in natural iteration order, sample the first
min(n, 100) of them, run the accumulation loop, and divide by the
sample size when it is positive.  estimated_data_bytes is cast to
int in the C++, i.e. truncated; the quantity is nonnegative, so the
truncation is the floor. -/
def SharedDict.get_stats (s : Store) : Stats :=
  let all_keys := SharedMemoryDict.keys s
  let sample_size := min all_keys.length 100
  let totals : Nat × Nat := statsLoop s all_keys sample_size
  let avg_key : ℚ := if sample_size > 0 then (totals.1 : ℚ) / (sample_size : ℚ) else 0
  let avg_value : ℚ := if sample_size > 0 then (totals.2 : ℚ) / (sample_size : ℚ) else 0
  { total_entries := SharedMemoryDict.size s
    sample_size := sample_size
    avg_key_utf8_bytes := avg_key
    avg_value_pickle_bytes := avg_value
    estimated_data_bytes := ⌊(SharedMemoryDict.size s : ℚ) * (avg_key + avg_value)⌋ }

/-- Per-process handle state: the open/closed flag of the spec (3).
The C++ member shm_ptr_ is non-null for the whole Python-visible
lifetime of the object, so it is not modelled separately. -/
structure HandleState where
  closed : Bool
deriving DecidableEq, Repr

/-- The named OS resource: whether the segment currently is present. -/
structure SegmentState where
  present : Bool
deriving DecidableEq, Repr

namespace SharedMemoryDict

/-- Modelled from the spec: core is_closed reports the handle flag. -/
def is_closed (h : HandleState) : Bool :=
  h.closed

/-- Modelled from the spec: core close detaches the handle
(idempotent). -/
def close (h : HandleState) : HandleState :=
  { closed := true }

/-- Modelled from the spec: core unlink removes the named OS
resource. -/
def unlinkSegment (seg : SegmentState) : SegmentState :=
  { present := false }

end SharedMemoryDict

/-- Transcription of SharedDict::close (shareddict.cpp lines 60-66). -/
def SharedDict.close (h : HandleState) : HandleState :=
  SharedMemoryDict.close h

/-- Transcription of SharedDict::unlink (shareddict.cpp lines 68-78): if
the handle is not closed, throw and leave the segment alone; otherwise
remove the named resource.  The result pairs the thrown-or-ok outcome
with the segment state afterwards. -/
def SharedDict.unlink (h : HandleState) (seg : SegmentState) :
    Except String Unit × SegmentState :=
  if !SharedMemoryDict.is_closed h then
    (.error "Cannot unlink a SharedDict that is still open. Call close() first.", seg)
  else
    (.ok (), SharedMemoryDict.unlinkSegment seg)

/-! ### Little-endian helper lemmas -/

theorem write_le_length (w n : Nat) : (write_le w n).length = w := by
  simp [write_le]

theorem leDigits_length (w n : Nat) : (leDigits w n).length = w := by
  simp [leDigits]

/-- The implementation loop of write_le produces exactly the little-endian
base-256 digits of the value. -/
theorem write_le_eq_leDigits (w n : Nat) : write_le w n = leDigits w n := by
  unfold write_le leDigits
  refine List.map_congr_left fun i _ => ?_
  have h1 : n >>> (8 * i) = n / 2 ^ (8 * i) := Nat.shiftRight_eq_div_pow n (8 * i)
  have h2 : (2 : Nat) ^ (8 * i) = 256 ^ i := by
    rw [Nat.pow_mul]
  have h3 : n / 2 ^ (8 * i) &&& 0xFF = n / 2 ^ (8 * i) % 256 := by
    have := Nat.and_pow_two_sub_one_eq_mod (n / 2 ^ (8 * i)) 8
    norm_num at this
    exact this
  rw [h1, h3, h2]

theorem read_le_zero (l : List Nat) : read_le 0 l = 0 := rfl

theorem read_le_succ (w : Nat) (l : List Nat) :
    read_le (w + 1) l = read_le w l ||| (l.getD w 0 % 256) <<< (8 * w) := by
  unfold read_le
  rw [List.range_succ, List.foldl_append]
  rfl

theorem read_le_lt (w : Nat) (l : List Nat) : read_le w l < 256 ^ w := by
  induction w with
  | zero => simp [read_le_zero]
  | succ w ih =>
    rw [read_le_succ]
    have hb : l.getD w 0 % 256 < 256 := Nat.mod_lt _ (by norm_num)
    have h2 : (256 : Nat) ^ w = 2 ^ (8 * w) := by
      rw [Nat.pow_mul]
    have hsh : (l.getD w 0 % 256) <<< (8 * w) = l.getD w 0 % 256 * 2 ^ (8 * w) :=
      Nat.shiftLeft_eq _ _
    have hlt1 : read_le w l < 2 ^ (8 * w) := h2 ▸ ih
    have hlt2 : l.getD w 0 % 256 * 2 ^ (8 * w) ≤ 255 * 2 ^ (8 * w) :=
      Nat.mul_le_mul_right _ (by omega)
    have hor : read_le w l ||| (l.getD w 0 % 256) <<< (8 * w)
        = 2 ^ (8 * w) * (l.getD w 0 % 256) + read_le w l := by
      rw [hsh, Nat.mul_comm (l.getD w 0 % 256) (2 ^ (8 * w)), Nat.or_comm]
      exact (Nat.mul_add_lt_is_or hlt1 _).symm
    rw [hor]
    have : (256 : Nat) ^ (w + 1) = 2 ^ (8 * w) * 256 := by
      rw [pow_succ, h2]
    rw [this]
    calc 2 ^ (8 * w) * (l.getD w 0 % 256) + read_le w l
        < 2 ^ (8 * w) * (l.getD w 0 % 256) + 2 ^ (8 * w) := by omega
      _ ≤ 2 ^ (8 * w) * 255 + 2 ^ (8 * w) := by
          have := Nat.mul_le_mul_left (2 ^ (8 * w)) (show l.getD w 0 % 256 ≤ 255 by omega)
          omega
      _ ≤ 2 ^ (8 * w) * 256 := by omega

/-- Adding a fresh top byte to a little-endian accumulator. -/
theorem read_le_succ_add (w : Nat) (l : List Nat) :
    read_le (w + 1) l = 256 ^ w * (l.getD w 0 % 256) + read_le w l := by
  rw [read_le_succ]
  have h2 : (256 : Nat) ^ w = 2 ^ (8 * w) := by
    rw [Nat.pow_mul]
  have hsh : (l.getD w 0 % 256) <<< (8 * w) = l.getD w 0 % 256 * 2 ^ (8 * w) :=
    Nat.shiftLeft_eq _ _
  have hlt1 : read_le w l < 2 ^ (8 * w) := h2 ▸ read_le_lt w l
  rw [hsh, Nat.mul_comm (l.getD w 0 % 256) (2 ^ (8 * w)), Nat.or_comm, h2]
  exact (Nat.mul_add_lt_is_or hlt1 _).symm

/-- Reading w little-endian bytes back from the digits written for a value
recovers the value modulo 256 ^ w, whatever follows in the buffer. -/
theorem read_le_leDigits_append (w n : Nat) (rest : List Nat) :
    read_le w (leDigits w n ++ rest) = n % 256 ^ w := by
  induction w generalizing rest with
  | zero => simp [read_le_zero, Nat.mod_one]
  | succ w ih =>
    have hsplit : leDigits (w + 1) n = leDigits w n ++ [n / 256 ^ w % 256] := by
      unfold leDigits
      rw [List.range_succ, List.map_append]
      rfl
    have hlist : leDigits (w + 1) n ++ rest = leDigits w n ++ ([n / 256 ^ w % 256] ++ rest) := by
      rw [hsplit, List.append_assoc]
    rw [hlist, read_le_succ_add]
    have hlen : (leDigits w n).length = w := leDigits_length w n
    have hgetD : (leDigits w n ++ ([n / 256 ^ w % 256] ++ rest)).getD w 0 = n / 256 ^ w % 256 := by
      simp only [List.getD_eq_getElem?_getD]
      rw [List.getElem?_append_right hlen.le, hlen, Nat.sub_self]
      simp
    rw [hgetD, ih]
    have : n / 256 ^ w % 256 % 256 = n / 256 ^ w % 256 := by omega
    rw [this]
    have hmul : (256 : Nat) ^ (w + 1) = 256 ^ w * 256 := pow_succ 256 w
    rw [hmul, Nat.mod_mul]
    omega

/-! ### Decimal digits and the dtype descriptor -/

theorem parseDec_decDigits_of_lt (n : Nat) (h : n < 32) : parseDec (decDigits n) = n := by
  revert h
  revert n
  decide

theorem decDigits_length_of_lt (n : Nat) (h : n < 32) : (decDigits n).length ≤ 2 := by
  revert h
  revert n
  decide

theorem dtypeString_length_le (dt : Dtype) (h : dt.bits < 256) :
    (dtypeString dt).length ≤ 4 := by
  have hd : dt.bits / 8 < 32 := by omega
  have := decDigits_length_of_lt (dt.bits / 8) hd
  simp [dtypeString]
  omega

theorem parseItemsize_dtypeString (dt : Dtype) (h : dt.bits < 256) :
    parseItemsize (dtypeString dt) = dt.bits / 8 := by
  have hd : dt.bits / 8 < 32 := by omega
  simp [parseItemsize, dtypeString]
  exact parseDec_decDigits_of_lt _ hd

/-! ### Splitting concatenated buffers -/

theorem drop_len_append {A rest : List Nat} {w : Nat} (h : A.length = w) :
    (A ++ rest).drop w = rest := by
  subst h
  exact List.drop_left A rest

theorem take_len_append {A rest : List Nat} {w : Nat} (h : A.length = w) :
    (A ++ rest).take w = A := by
  subst h
  exact List.take_left A rest

theorem flatten_map_leDigits_length (sh : List Nat) :
    ((sh.map (leDigits 8)).flatten).length = 8 * sh.length := by
  induction sh with
  | nil => simp
  | cons a t ih =>
    simp only [List.map_cons, List.flatten_cons, List.length_append, ih,
      leDigits_length, List.length_cons]
    ring

/-- Reading the axis extents back: position 8 * i of the concatenated
8-byte extents recovers extent i modulo 2 ^ 64. -/
theorem parse_shape_mod (sh rest : List Nat) :
    (List.range sh.length).map
        (fun i => read_le 8 (((sh.map (leDigits 8)).flatten ++ rest).drop (8 * i)))
      = sh.map (· % 256 ^ 8) := by
  induction sh generalizing rest with
  | nil => simp
  | cons a t ih =>
    have hlen8 : (leDigits 8 a).length = 8 := leDigits_length 8 a
    have hflat : ((a :: t).map (leDigits 8)).flatten
        = leDigits 8 a ++ ((t.map (leDigits 8)).flatten) := by
      simp
    rw [List.length_cons, List.range_succ_eq_map, List.map_cons, List.map_map]
    have h0 : read_le 8 ((((a :: t).map (leDigits 8)).flatten ++ rest).drop (8 * 0))
        = a % 256 ^ 8 := by
      rw [Nat.mul_zero, List.drop_zero, hflat, List.append_assoc]
      exact read_le_leDigits_append 8 a _
    have hstep : ∀ i : Nat,
        (((a :: t).map (leDigits 8)).flatten ++ rest).drop (8 * (i + 1))
          = ((t.map (leDigits 8)).flatten ++ rest).drop (8 * i) := by
      intro i
      rw [hflat, List.append_assoc]
      have : 8 * (i + 1) = 8 + 8 * i := by ring
      rw [this, ← List.drop_drop, drop_len_append hlen8]
    rw [h0]
    congr 1
    rw [← ih rest]
    refine List.map_congr_left fun i _ => ?_
    simp only [Function.comp_apply, Nat.succ_eq_add_one]
    rw [hstep i]

/-! ### The record layout and the round trip -/

theorem write_le_fun_eq (w : Nat) : write_le w = leDigits w :=
  funext (write_le_eq_leDigits w)

/-- The serialized form of an array, with the implementation loops
replaced by their digit characterizations. -/
theorem serialize_numpy_eq (dt : Dtype) (sh data : List Nat) :
    serialize_numpy dt sh data
      = 1 :: (leDigits 4 (dtypeString dt).length ++ (dtypeString dt
        ++ (leDigits 4 sh.length ++ ((sh.map (leDigits 8)).flatten
        ++ (leDigits 8 data.length ++ data))))) := by
  unfold serialize_numpy
  rw [write_le_fun_eq 4, write_le_fun_eq 8]
  simp [List.append_assoc]

/-- Decoding the body of a well-formed array record recovers the dtype
descriptor, the shape and the raw data. -/
theorem deserialize_numpy_append (dt : Dtype) (sh data : List Nat)
    (hbits : dt.bits < 256) (hb8 : 8 ≤ dt.bits) (hnd : 1 ≤ sh.length)
    (hndlt : sh.length < 2 ^ 32) (hdims : ∀ a ∈ sh, a < 2 ^ 64)
    (hlen : data.length = sh.prod * (dt.bits / 8)) (hdlt : data.length < 2 ^ 64) :
    deserialize_numpy (leDigits 4 (dtypeString dt).length ++ (dtypeString dt
        ++ (leDigits 4 sh.length ++ ((sh.map (leDigits 8)).flatten
        ++ (leDigits 8 data.length ++ data)))))
      = .ndarray (dtypeString dt) sh data := by
  have hL : (dtypeString dt).length ≤ 4 := dtypeString_length_le dt hbits
  simp only [deserialize_numpy]
  rw [drop_len_append (leDigits_length 4 (dtypeString dt).length)]
  rw [read_le_leDigits_append 4 (dtypeString dt).length]
  have hLmod : (dtypeString dt).length % 256 ^ 4 = (dtypeString dt).length :=
    Nat.mod_eq_of_lt (lt_of_le_of_lt hL (by norm_num))
  rw [hLmod]
  rw [take_len_append rfl, drop_len_append rfl]
  rw [read_le_leDigits_append 4 sh.length]
  have hDmod : sh.length % 256 ^ 4 = sh.length :=
    Nat.mod_eq_of_lt (lt_of_lt_of_le hndlt (by norm_num))
  rw [hDmod]
  rw [drop_len_append (leDigits_length 4 sh.length)]
  rw [parse_shape_mod sh (leDigits 8 data.length ++ data)]
  have hshape : sh.map (· % 256 ^ 8) = sh := by
    have h1 : ∀ a ∈ sh, a % 256 ^ 8 = a := fun a ha =>
      Nat.mod_eq_of_lt (lt_of_lt_of_le (hdims a ha) (by norm_num))
    exact (List.map_congr_left h1).trans (List.map_id sh)
  rw [hshape]
  rw [drop_len_append (flatten_map_leDigits_length sh)]
  rw [read_le_leDigits_append 8 data.length]
  have hPmod : data.length % 256 ^ 8 = data.length :=
    Nat.mod_eq_of_lt (lt_of_lt_of_le hdlt (by norm_num))
  rw [hPmod]
  rw [drop_len_append (leDigits_length 8 data.length)]
  rw [List.take_length]
  by_cases hc : 1 < sh.length
  · rw [if_pos hc]
  · rw [if_neg hc]
    have hone : sh.length = 1 := by omega
    obtain ⟨a, rfl⟩ := List.length_eq_one.mp hone
    rw [parseItemsize_dtypeString dt hbits, hlen]
    have hprod : List.prod [a] = a := by simp
    rw [hprod]
    have hpos : 0 < dt.bits / 8 := by omega
    rw [Nat.mul_div_cancel a hpos]

/-- Round trip of the codec on well-formed values: decode of encode
returns the decoded form of the original value. -/
theorem deserialize_serialize (v : PyValue) (h : v.supported = true) :
    deserialize_value (serialize_value v) = .ok v.decodedForm := by
  cases v with
  | pickled p => rfl
  | ndarray dt sh data =>
    simp only [PyValue.supported, Bool.and_eq_true, decide_eq_true_eq,
      List.all_eq_true] at h
    obtain ⟨⟨⟨⟨⟨⟨hbits, hb8⟩, hnd⟩, hndlt⟩, hdims⟩, hlen⟩, hdlt⟩ := h
    show deserialize_value (serialize_numpy dt sh data)
      = Except.ok (PyValue.decodedForm (.ndarray dt sh data))
    rw [serialize_numpy_eq]
    simp only [deserialize_value]
    rw [if_pos trivial]
    rw [deserialize_numpy_append dt sh data hbits hb8 hnd hndlt hdims hlen hdlt]
    rfl

/-! ### Store lemmas -/

theorem find?_update (t : Store) (k : String) (v : List Nat) :
    (t.map fun p => if p.1 == k then (k, v) else p).find? (fun p => p.1 == k)
      = if (t.find? (fun p => p.1 == k)).isSome then some (k, v) else none := by
  rw [List.find?_map]
  have hcomp : ((fun p : String × List Nat => p.1 == k) ∘ fun p => if p.1 == k then (k, v) else p)
      = fun p : String × List Nat => p.1 == k := by
    funext x
    by_cases hx : (x.1 == k) = true
    · simp only [Function.comp_apply, if_pos hx]
      rw [hx]
      simp
    · simp only [Function.comp_apply, if_neg hx]
  rw [hcomp]
  cases hfind : t.find? fun p => p.1 == k with
  | none => simp
  | some val =>
    have hv : (val.1 == k) = true := by simpa using List.find?_some hfind
    simp [hv]
    intro hvk
    exact absurd (by simpa using hv) hvk

theorem SMget_set_self (s : Store) (k : String) (v : List Nat) :
    SharedMemoryDict.get (SharedMemoryDict.set s k v) k = some v := by
  unfold SharedMemoryDict.get SharedMemoryDict.set
  by_cases h : SharedMemoryDict.contains s k
  · rw [if_pos h]
    have h2 : (s.find? fun p => p.1 == k).isSome = true := by
      unfold SharedMemoryDict.contains SharedMemoryDict.get at h
      simpa using h
    rw [find?_update, if_pos h2]
    rfl
  · rw [if_neg h]
    have h2 : (s.find? fun p => p.1 == k) = none := by
      cases hfind : s.find? fun p => p.1 == k with
      | none => rfl
      | some val =>
        exfalso
        apply h
        unfold SharedMemoryDict.contains SharedMemoryDict.get
        rw [hfind]
        rfl
    rw [List.find?_append, h2]
    simp

theorem SMget_filter_self (s : Store) (k : String) :
    SharedMemoryDict.get (s.filter fun p => !(p.1 == k)) k = none := by
  unfold SharedMemoryDict.get
  induction s with
  | nil => rfl
  | cons p t ih =>
    by_cases hp : p.1 == k
    · simpa [List.filter_cons, hp] using ih
    · simpa [List.filter_cons, hp, List.find?_cons] using ih

/-! ### Claims about deserialize_value dispatch -/

/-- C10: deserialize_value rejects the empty record with the error
"Empty data cannot be deserialized" before looking at any marker; an
empty record is never routed to the legacy pickle fallback. -/
theorem c10_empty_record_rejected :
    deserialize_value [] = .error "Empty data cannot be deserialized" :=
  rfl

/-- C4: a non-empty record whose first byte (as uint8) is neither the
pickle marker 0x00 nor the numpy marker 0x01 is decoded by handing the
ENTIRE byte range, first byte included, to the opaque pickle
deserializer. -/
theorem c4_legacy_fallback_whole_range (b : Nat) (rest : List Nat)
    (h0 : b % 256 ≠ 0) (h1 : b % 256 ≠ 1) :
    deserialize_value (b :: rest) = .ok (.pickled (b :: rest)) := by
  simp [deserialize_value, h0, h1]

theorem c4_legacy_fallback_whole_range_witness :
    (2 : Nat) % 256 ≠ 0 ∧ (2 : Nat) % 256 ≠ 1 ∧
      deserialize_value [2, 5] = .ok (.pickled [2, 5]) :=
  ⟨by decide, by decide,
    c4_legacy_fallback_whole_range 2 [5] (by decide) (by decide)⟩

/-- C2 (the code, not the claim): on the truncated numpy record
0x01 FF FF FF FF the decoder needs 4294967311 payload bytes — the
declared dtype-string length alone is 4294967295 — while only 4 are
present, and it still produces a value instead of any error: the C++
deserialize_numpy ignores its size argument and performs no bounds
check, so these reads run past the end of the buffer. -/
theorem c2_truncated_record_reads_past_end :
    deserializeNumpyBytesNeeded [255, 255, 255, 255] = 4294967311 ∧
      4294967311 > (4 : Nat) ∧
      (deserialize_value [1, 255, 255, 255, 255]).isOk = true := by
  refine ⟨by decide, by decide, by decide⟩

/-! ### Claim C1: get with default -/

/-- C1 counterexample: a present key whose record fails to deserialize
(the empty record).  The claim requires the failure to propagate, but
SharedDict::get catches every std::exception and returns the
caller-supplied default. -/
theorem c1_get_default_counterexample :
    SharedMemoryDict.get [("k", [])] "k" = some [] ∧
      deserialize_value [] = .error "Empty data cannot be deserialized" ∧
      SharedDict.get [("k", [])] "k" (.pickled [7]) = .pickled [7] :=
  ⟨rfl, rfl, rfl⟩

/-- C1 (amended): SharedDict::get returns the stored value when lookup
and decode both succeed, and the caller-supplied default whenever
__getitem__ fails for any reason — absent key or deserialization
failure alike. -/
theorem c1_get_default_on_any_failure (s : Store) (k : String) (d : DecValue) :
    (SharedMemoryDict.get s k = none → SharedDict.get s k d = d) ∧
    (∀ r, SharedMemoryDict.get s k = some r → (deserialize_value r).isOk = false →
      SharedDict.get s k d = d) ∧
    (∀ r v, SharedMemoryDict.get s k = some r → deserialize_value r = .ok v →
      SharedDict.get s k d = v) := by
  refine ⟨fun h => ?_, fun r hr hfail => ?_, fun r v hr hok => ?_⟩
  · simp [SharedDict.get, SharedDict.getitem, h]
  · simp only [SharedDict.get, SharedDict.getitem, hr]
    cases hdv : deserialize_value r with
    | ok v =>
      rw [hdv] at hfail
      simp [Except.isOk, Except.toBool] at hfail
    | error m => rfl
  · simp [SharedDict.get, SharedDict.getitem, hr, hok]

theorem c1_get_default_on_any_failure_witness :
    SharedDict.get [("k", [])] "k" (.pickled [7]) = .pickled [7] :=
  (c1_get_default_on_any_failure [("k", [])] "k" (.pickled [7])).2.1 [] rfl rfl

/-! ### Claim C3: codec round trip -/

/-- C3 counterexample: a zero-dimensional array.  serialize_numpy writes
ndim = 0 and no extents; on decode, frombuffer yields a one-element
one-dimensional array and the reshape step is skipped because ndim is
not greater than one, so the value comes back with shape [1] instead of
the original empty shape — the round trip does not preserve the shape of
every supported array. -/
theorem c3_roundtrip_counterexample :
    deserialize_value (serialize_value (.ndarray ⟨.float, 64⟩ [] [0, 0, 0, 0, 0, 0, 0, 0]))
      = .ok (.ndarray (dtypeString ⟨.float, 64⟩) [1] [0, 0, 0, 0, 0, 0, 0, 0]) ∧
    PyValue.decodedForm (.ndarray ⟨.float, 64⟩ [] [0, 0, 0, 0, 0, 0, 0, 0])
      = .ndarray (dtypeString ⟨.float, 64⟩) [] [0, 0, 0, 0, 0, 0, 0, 0] ∧
    deserialize_value (serialize_value (.ndarray ⟨.float, 64⟩ [] [0, 0, 0, 0, 0, 0, 0, 0]))
      ≠ .ok (PyValue.decodedForm (.ndarray ⟨.float, 64⟩ [] [0, 0, 0, 0, 0, 0, 0, 0])) :=
  ⟨by decide, by decide, by decide⟩

/-- C3 (amended): decoding the encoding of a supported value — an opaque
value, or a well-formed numeric array of a supported element type with
at least one dimension — yields a value equal to the original: same
pickle payload, respectively same dtype descriptor, same shape in
order, and the same row-major element bytes.  (A zero-dimensional array
instead comes back as a one-element one-dimensional array.) -/
theorem c3_roundtrip (v : PyValue) (h : v.supported = true) :
    deserialize_value (serialize_value v) = .ok v.decodedForm :=
  deserialize_serialize v h

theorem c3_roundtrip_witness :
    (PyValue.ndarray ⟨.float, 64⟩ [2]
        [1, 2, 3, 4, 5, 6, 7, 8, 9, 10, 11, 12, 13, 14, 15, 16]).supported = true ∧
    deserialize_value (serialize_value (.ndarray ⟨.float, 64⟩ [2]
        [1, 2, 3, 4, 5, 6, 7, 8, 9, 10, 11, 12, 13, 14, 15, 16]))
      = .ok (PyValue.decodedForm (.ndarray ⟨.float, 64⟩ [2]
        [1, 2, 3, 4, 5, 6, 7, 8, 9, 10, 11, 12, 13, 14, 15, 16])) :=
  ⟨by decide, c3_roundtrip _ (by decide)⟩

/-! ### Claim C6: the serialized array layout -/

/-- C6: serialize_numpy produces exactly the marker byte 0x01, then the
4-byte little-endian length of the type descriptor string, the
descriptor string itself, the 4-byte little-endian dimension count, one
8-byte little-endian extent per axis in order, the 8-byte little-endian
payload length equal to the byte size of the array, and the backing
buffer bytes copied verbatim with no per-element conversion. -/
theorem c6_serialize_numpy_layout (dt : Dtype) (sh data : List Nat)
    (hbits : dt.bits < 256) (hndlt : sh.length < 2 ^ 32)
    (hdims : ∀ a ∈ sh, a < 2 ^ 64) (hdlt : data.length < 2 ^ 64) :
    serialize_numpy dt sh data
      = 1 :: (leDigits 4 (dtypeString dt).length ++ (dtypeString dt
        ++ (leDigits 4 sh.length ++ ((sh.map (leDigits 8)).flatten
        ++ (leDigits 8 data.length ++ data))))) :=
  serialize_numpy_eq dt sh data

theorem c6_serialize_numpy_layout_witness :
    ((⟨DtypeCode.uint, 16⟩ : Dtype).bits < 256 ∧ ([2, 3] : List Nat).length < 2 ^ 32) ∧
    serialize_numpy ⟨DtypeCode.uint, 16⟩ [2, 3] [0, 1, 2, 3, 4, 5, 6, 7, 8, 9, 10, 11]
      = 1 :: (leDigits 4 (dtypeString ⟨DtypeCode.uint, 16⟩).length
        ++ (dtypeString ⟨DtypeCode.uint, 16⟩
        ++ (leDigits 4 ([2, 3] : List Nat).length
        ++ ((([2, 3] : List Nat).map (leDigits 8)).flatten
        ++ (leDigits 8 ([0, 1, 2, 3, 4, 5, 6, 7, 8, 9, 10, 11] : List Nat).length
        ++ [0, 1, 2, 3, 4, 5, 6, 7, 8, 9, 10, 11]))))) :=
  ⟨⟨by decide, by decide⟩,
    c6_serialize_numpy_layout ⟨DtypeCode.uint, 16⟩ [2, 3]
      [0, 1, 2, 3, 4, 5, 6, 7, 8, 9, 10, 11]
      (by decide) (by decide) (by decide) (by decide)⟩

/-! ### Claim C5: set then get -/

/-- C5 counterexample: storing a zero-dimensional array under a key and
reading it back yields a one-element one-dimensional array, not a value
equal to the original (the shapes differ). -/
theorem c5_set_get_counterexample :
    SharedDict.getitem
        (SharedDict.setitem [] "k" (.ndarray ⟨.float, 64⟩ [] [0, 0, 0, 0, 0, 0, 0, 0])) "k"
      = .found (.ndarray (dtypeString ⟨.float, 64⟩) [1] [0, 0, 0, 0, 0, 0, 0, 0]) ∧
    SharedDict.getitem
        (SharedDict.setitem [] "k" (.ndarray ⟨.float, 64⟩ [] [0, 0, 0, 0, 0, 0, 0, 0])) "k"
      ≠ .found (PyValue.decodedForm (.ndarray ⟨.float, 64⟩ [] [0, 0, 0, 0, 0, 0, 0, 0])) :=
  ⟨by decide, by decide⟩

/-- C5 (amended): for every text key and every supported value — opaque,
or a well-formed array with at least one dimension — a set followed by a
get on the same key returns a value equal to the one stored.  (A
zero-dimensional array comes back as its one-element one-dimensional
reading.) -/
theorem c5_set_get (s : Store) (k : String) (v : PyValue) (h : v.supported = true) :
    SharedDict.getitem (SharedDict.setitem s k v) k = .found v.decodedForm := by
  unfold SharedDict.getitem SharedDict.setitem
  rw [SMget_set_self]
  show (match deserialize_value (serialize_value v) with
    | Except.error m => GetResult.deserError m
    | Except.ok w => GetResult.found w) = GetResult.found v.decodedForm
  rw [deserialize_serialize v h]

theorem c5_set_get_witness :
    (PyValue.pickled [1, 2]).supported = true ∧
    SharedDict.getitem (SharedDict.setitem [] "a" (.pickled [1, 2])) "a"
      = .found (PyValue.decodedForm (.pickled [1, 2])) :=
  ⟨rfl, c5_set_get [] "a" (.pickled [1, 2]) rfl⟩

/-! ### Claim C7: delete semantics -/

/-- C7: after a set of key k followed by a delete of k, contains reports
false and a get fails with KeyError; deleting an absent key fails with
KeyError and the store is untouched (the core erase reports the absence
without producing a new store). -/
theorem c7_delete_semantics (s : Store) (k : String) (v : PyValue) :
    (∃ s2, SharedDict.delitem (SharedDict.setitem s k v) k = .ok s2 ∧
      SharedDict.containsKey s2 k = false ∧
      SharedDict.getitem s2 k = .keyError k) ∧
    (SharedMemoryDict.contains s k = false →
      SharedMemoryDict.erase s k = none ∧ SharedDict.delitem s k = .error k) := by
  constructor
  · have hget : SharedMemoryDict.get (SharedDict.setitem s k v) k
        = some (serialize_value v) := by
      unfold SharedDict.setitem
      exact SMget_set_self s k (serialize_value v)
    have hcont : SharedMemoryDict.contains (SharedDict.setitem s k v) k = true := by
      unfold SharedMemoryDict.contains
      rw [hget]
      rfl
    have herase : SharedMemoryDict.erase (SharedDict.setitem s k v) k
        = some ((SharedDict.setitem s k v).filter fun p => !(p.1 == k)) := by
      unfold SharedMemoryDict.erase
      rw [if_pos hcont]
    refine ⟨(SharedDict.setitem s k v).filter fun p => !(p.1 == k), ?_, ?_, ?_⟩
    · unfold SharedDict.delitem
      rw [herase]
    · unfold SharedDict.containsKey SharedMemoryDict.contains
      rw [SMget_filter_self]
      rfl
    · unfold SharedDict.getitem
      rw [SMget_filter_self]
  · intro hnc
    have herase : SharedMemoryDict.erase s k = none := by
      unfold SharedMemoryDict.erase
      rw [hnc]
      rfl
    refine ⟨herase, ?_⟩
    unfold SharedDict.delitem
    rw [herase]

theorem c7_delete_semantics_witness :
    SharedMemoryDict.erase ([] : Store) "a" = none ∧
      SharedDict.delitem ([] : Store) "a" = .error "a" :=
  (c7_delete_semantics [] "a" (.pickled [])).2 rfl

/-! ### Claim C8: unlink requires a closed handle -/

/-- C8: unlink on a handle that has not been closed fails with the
lifecycle error and leaves the segment in place; on a closed handle —
in particular right after close — it removes the named resource. -/
theorem c8_unlink_requires_closed (h : HandleState) (seg : SegmentState) :
    (h.closed = false →
      SharedDict.unlink h seg
        = (.error "Cannot unlink a SharedDict that is still open. Call close() first.", seg)) ∧
    (h.closed = true →
      SharedDict.unlink h seg = (.ok (), { present := false })) ∧
    SharedDict.unlink (SharedDict.close h) seg = (.ok (), { present := false }) := by
  refine ⟨fun hc => ?_, fun hc => ?_, ?_⟩
  · simp [SharedDict.unlink, SharedMemoryDict.is_closed, hc]
  · simp [SharedDict.unlink, SharedMemoryDict.is_closed, hc, SharedMemoryDict.unlinkSegment]
  · rfl

theorem c8_unlink_requires_closed_witness :
    SharedDict.unlink ⟨false⟩ ⟨true⟩
      = (.error "Cannot unlink a SharedDict that is still open. Call close() first.", ⟨true⟩) :=
  (c8_unlink_requires_closed ⟨false⟩ ⟨true⟩).1 rfl

/-! ### Claim C9: statistics sampling -/

theorem keys_getD (s : Store) (i : Nat) (hi : i < s.length) :
    (SharedMemoryDict.keys s).getD i "" = s[i].1 := by
  unfold SharedMemoryDict.keys
  rw [List.getD_eq_getElem?_getD, List.getElem?_map, List.getElem?_eq_getElem hi]
  rfl

/-- In a store with pairwise distinct keys, looking up the key of entry
i returns exactly the record of entry i. -/
theorem SMget_getElem (s : Store) (hnd : (s.map Prod.fst).Nodup) (i : Nat)
    (hi : i < s.length) :
    SharedMemoryDict.get s s[i].1 = some s[i].2 := by
  induction s generalizing i with
  | nil => simp at hi
  | cons p t ih =>
    cases i with
    | zero =>
      unfold SharedMemoryDict.get
      simp [List.find?]
    | succ j =>
      have hj : j < t.length := by simpa using hi
      have hmemf : t[j].1 ∈ t.map Prod.fst :=
        List.mem_map_of_mem _ (t.getElem_mem hj)
      have hne : ¬ (p.1 = t[j].1) := by
        intro hEq
        exact (List.nodup_cons.mp (by simpa using hnd)).1 (hEq ▸ hmemf)
      have hndt : (t.map Prod.fst).Nodup :=
        (List.nodup_cons.mp (by simpa using hnd)).2
      have hrec := ih hndt j hj
      simp only [List.getElem_cons_succ]
      unfold SharedMemoryDict.get at hrec ⊢
      simp only [List.find?]
      rw [show (p.1 == t[j].1) = false by simpa using hne]
      exact hrec

theorem statsLoop_succ (s : Store) (ks : List String) (j : Nat) :
    statsLoop s ks (j + 1)
      = (match SharedMemoryDict.get s (ks.getD j "") with
        | some v => ((statsLoop s ks j).1 + (ks.getD j "").utf8ByteSize,
            (statsLoop s ks j).2 + v.length)
        | none => ((statsLoop s ks j).1 + (ks.getD j "").utf8ByteSize,
            (statsLoop s ks j).2)) := by
  unfold statsLoop
  rw [List.range_succ, List.foldl_append]
  simp only [List.foldl_cons, List.foldl_nil]

/-- The sampling loop over the first m keys accumulates exactly the sum
of the key byte sizes and the sum of the record byte sizes of the first
m entries, in iteration order. -/
theorem statsLoop_take (s : Store) (hnd : (s.map Prod.fst).Nodup) (m : Nat)
    (hm : m ≤ s.length) :
    statsLoop s (SharedMemoryDict.keys s) m
      = (((s.take m).map fun p => p.1.utf8ByteSize).sum,
         ((s.take m).map fun p => p.2.length).sum) := by
  induction m with
  | zero => simp [statsLoop]
  | succ j ih =>
    have hjlt : j < s.length := by omega
    have hj : j ≤ s.length := by omega
    have htake : s.take (j + 1) = s.take j ++ [s[j]] := by
      rw [List.take_succ, List.getElem?_eq_getElem hjlt]
      rfl
    rw [statsLoop_succ, ih hj, keys_getD s j hjlt, SMget_getElem s hnd j hjlt, htake]
    simp only [List.map_append, List.sum_append, List.map_cons, List.map_nil,
      List.sum_cons, List.sum_nil, Prod.mk.injEq]
    constructor <;> omega

/-- C9: get_stats samples exactly the first min(n, 100) entries in
natural iteration order (not randomly selected) and reports the
arithmetic mean of the key byte lengths and of the stored
serialized-record byte lengths over exactly that sample, together with
sample_size = min(n, 100) and total_entries = n. -/
theorem c9_get_stats_sampling (s : Store) (hnd : (s.map Prod.fst).Nodup) :
    (SharedDict.get_stats s).total_entries = s.length ∧
    (SharedDict.get_stats s).sample_size = min s.length 100 ∧
    (SharedDict.get_stats s).avg_key_utf8_bytes
      = (if min s.length 100 > 0
         then (((((s.take (min s.length 100)).map fun p => p.1.utf8ByteSize).sum : Nat) : ℚ)
           / ((min s.length 100 : Nat) : ℚ))
         else 0) ∧
    (SharedDict.get_stats s).avg_value_pickle_bytes
      = (if min s.length 100 > 0
         then (((((s.take (min s.length 100)).map fun p => p.2.length).sum : Nat) : ℚ)
           / ((min s.length 100 : Nat) : ℚ))
         else 0) := by
  have hkeys_len : (SharedMemoryDict.keys s).length = s.length := by
    simp [SharedMemoryDict.keys]
  have hfold := statsLoop_take s hnd (min s.length 100) (Nat.min_le_left _ _)
  refine ⟨?_, ?_, ?_, ?_⟩ <;>
    simp only [SharedDict.get_stats, SharedMemoryDict.size, hkeys_len, hfold]

theorem c9_get_stats_sampling_witness :
    (([("a", [1, 2]), ("bb", [3])] : Store).map Prod.fst).Nodup ∧
    (SharedDict.get_stats [("a", [1, 2]), ("bb", [3])]).total_entries = 2 ∧
    (SharedDict.get_stats [("a", [1, 2]), ("bb", [3])]).sample_size = 2 ∧
    (SharedDict.get_stats [("a", [1, 2]), ("bb", [3])]).avg_key_utf8_bytes = 3 / 2 ∧
    (SharedDict.get_stats [("a", [1, 2]), ("bb", [3])]).avg_value_pickle_bytes = 3 / 2 := by
  have h := c9_get_stats_sampling [("a", [1, 2]), ("bb", [3])] (by decide)
  refine ⟨by decide, h.1, h.2.1, ?_, ?_⟩
  · rw [h.2.2.1]
    norm_num [show ("a".utf8ByteSize = 1) from rfl, show ("bb".utf8ByteSize = 2) from rfl]
  · rw [h.2.2.2]
    norm_num

end SharedBox
